import Mathlib

/-
Verification of the FORT validator's validation-state, hash and notify
modules (src/state.c, src/crypto/hash.c, src/notify.c), together with the
resource-set canonicalization policy described by the design document.
Machine integers are modelled as Nat/Int; OpenSSL handles are modelled by
the data the code observes of them.
-/

namespace Fort

/-! ## Resource ranges and canonicalization -/

/-- Address family and inclusive numeric bounds of one number-resource range.
Modelled from the spec: the resource-set implementation (resources.c) is not
among the sampled sources. The spec describes an IP range as address family
plus numeric inclusive start and end, and an AS range as an inclusive pair of
32-bit AS numbers; AS ranges reuse this record with the family component
fixed at zero. -/
structure RRange where
  fam : Nat
  lo : Nat
  hi : Nat
deriving DecidableEq, Repr

/-- Ordering used by canonicalization: by family, then by start address.
Modelled from the spec: ranges are sorted by start. -/
def rle (a b : RRange) : Prop :=
  a.fam < b.fam ∨ (a.fam = b.fam ∧ a.lo ≤ b.lo)

instance : DecidableRel rle := fun a b =>
  decidable_of_iff (a.fam < b.fam ∨ (a.fam = b.fam ∧ a.lo ≤ b.lo)) Iff.rfl

instance : IsTotal RRange rle :=
  ⟨by intro a b; unfold rle; omega⟩

instance : IsTrans RRange rle :=
  ⟨by intro a b c; unfold rle; omega⟩

/-- Touching-or-overlapping test for two ranges in sorted order: they share a
family and the second starts no later than one past the end of the first.
Modelled from the spec: any adjacent or overlapping ranges are fused; equal
ranges collapse. -/
def fusable (a b : RRange) : Bool :=
  (a.fam == b.fam) && (decide (b.lo ≤ a.hi + 1))

/-- Fusion pass of canonicalization over an already start-sorted list,
carrying the range currently being accumulated. Modelled from the spec. -/
def fuseRanges (a : RRange) : List RRange → List RRange
  | [] => [a]
  | b :: l =>
    if fusable a b then fuseRanges ⟨a.fam, a.lo, max a.hi b.hi⟩ l
    else a :: fuseRanges b l

/-- Canonicalization of one range sequence: sort by start, then fuse
touching or overlapping neighbours. Modelled from the spec. -/
def canonRanges (l : List RRange) : List RRange :=
  match List.insertionSort rle l with
  | [] => []
  | a :: t => fuseRanges a t

/-- Resource set owned by a certificate (struct resources): a pair of
sequences of IP ranges and AS ranges. Modelled from the spec: resources.c is
not among the sampled sources. -/
structure resources where
  ips : List RRange
  asns : List RRange
deriving DecidableEq, Repr

/-- Canonicalization of a resource set: canonicalize both sequences.
Modelled from the spec. -/
def canonicalize (x : resources) : resources :=
  ⟨canonRanges x.ips, canonRanges x.asns⟩

/-- Emptiness test of a resource set (resources_empty): no IP ranges and no
AS ranges. Modelled from the spec. -/
def resources_empty (r : resources) : Bool :=
  r.ips.isEmpty && r.asns.isEmpty

/-! ## Error codes and logging results -/

def EINVAL : Int := 22

def ENOENT : Int := 2

/-- Modelled from the spec: pr_err (log.h, not among the sampled sources)
logs an error message and returns a nonzero error code. -/
def pr_err_result : Int := -EINVAL

/-- Modelled from the spec: pr_crit (log.h, not among the sampled sources)
reports a critical programming error and returns a nonzero error code. -/
def pr_crit_result : Int := -EINVAL

/-! ## Certificates, the X.509 store and the verification callback -/

/-- Decoded certificate as the validation state observes it. The resData
field models the outcome of certificate_get_resources (object/certificate.c,
not among the sampled sources): none when parsing the RFC 3779 extensions
fails, otherwise the certificate's parsed resource set. -/
structure X509 where
  id : Nat
  resData : Option resources
deriving DecidableEq, Repr

/-- Resource-extension parser used by validation_push_cert. Modelled from the
spec: parse_ip_extension and parse_as_extension consume the decoded RFC 3779
structures of the certificate; failure yields a nonzero error. -/
def certificate_get_resources (cert : X509) : Except Int resources :=
  match cert.resData with
  | none => Except.error pr_err_result
  | some r => Except.ok r

def X509_V_ERR_UNHANDLED_CRITICAL_EXTENSION : Int := 34

/-- Verification callback cb of state.c. Its ctx argument is modelled by the
error code the code reads from it via X509_STORE_CTX_get_error. As in the
source: the unhandled-critical-extension error is ignored (return 1),
every other code leaves the incoming status untouched. -/
def cb (ok : Int) (ctx_error : Int) : Int :=
  if ctx_error = X509_V_ERR_UNHANDLED_CRITICAL_EXTENSION then 1 else ok

/-- X.509 trust store as the validation state observes it: the verification
callback registered on it by X509_STORE_set_verify_cb. -/
structure X509_STORE where
  verify_cb : Int → Int → Int

/-! ## Validation state (state.c) -/

/-- Enum pubkey_state of state.h: did the TAL public key match the root
certificate's public key. -/
inductive PubkeyState where
  | PKS_UNTESTED
  | PKS_VALID
  | PKS_INVALID
deriving DecidableEq, Repr

/-- Struct validation of state.c: the TAL (opaque handle), the X.509 trust
store, the stack of already-validated certificates (head of the list is the
top of the stack), the parallel stack of their resource sets, and the
public-key-check status. -/
structure validation where
  tal : Nat
  store : X509_STORE
  trusted : List X509
  rsrcs : List resources
  pubkey_state : PubkeyState

/-- Stack size, as sk_X509_num reports it. -/
def sk_X509_num (l : List X509) : Nat :=
  l.length

/-- Body of validation_prepare: a fresh state with the callback cb registered
on a new store, empty certificate and resource stacks, and the public-key
status initialized to untested. Allocation failures of malloc and of the
libcrypto constructors are not modelled. -/
def validation_prepare (tal : Nat) : validation :=
  { tal := tal
    store := { verify_cb := cb }
    trusted := []
    rsrcs := []
    pubkey_state := PubkeyState.PKS_UNTESTED }

/-- Body of validation_destroy, which returns no value; the Bool returned
here records the one observable of the claim, namely whether the
missing-pops error is reported, which the source does exactly when
sk_X509_num of the trusted stack differs from zero. -/
def validation_destroy (state : validation) : Bool :=
  sk_X509_num state.trusted != 0

def validation_tal (state : validation) : Nat :=
  state.tal

def validation_store (state : validation) : X509_STORE :=
  state.store

def validation_certs (state : validation) : List X509 :=
  state.trusted

def validation_resources (state : validation) : List resources :=
  state.rsrcs

def validation_pubkey_valid (state : validation) : validation :=
  { state with pubkey_state := PubkeyState.PKS_VALID }

def validation_pubkey_invalid (state : validation) : validation :=
  { state with pubkey_state := PubkeyState.PKS_INVALID }

def validation_pubkey_state (state : validation) : PubkeyState :=
  state.pubkey_state

/-- Body of validation_push_cert: compute the certificate's resources
(propagating a parse error with the stacks untouched); reject a trust anchor
whose resource set is empty via pr_err, again with the stacks untouched;
otherwise push the certificate onto the trusted stack and its resources onto
the resource stack and return 0. The sk_X509_push allocation failure is not
modelled. -/
def validation_push_cert (state : validation) (cert : X509) (is_ta : Bool) :
    Int × validation :=
  match certificate_get_resources cert with
  | Except.error e => (e, state)
  | Except.ok rs =>
    if is_ta && resources_empty rs then
      (pr_err_result, state)
    else
      (0, { state with trusted := cert :: state.trusted,
                       rsrcs := rs :: state.rsrcs })

/-- Body of validation_pop_cert: popping an empty certificate stack reports
pr_crit and changes nothing (sk_X509_pop of an empty stack returns NULL);
with a non-empty certificate stack the top certificate is removed, then the
resource stack is popped, reporting pr_crit if it was unexpectedly empty;
otherwise 0 is returned. -/
def validation_pop_cert (state : validation) : Int × validation :=
  match state.trusted with
  | [] => (pr_crit_result, state)
  | _ :: certs =>
    match state.rsrcs with
    | [] => (pr_crit_result, { state with trusted := certs })
    | _ :: rs => (0, { state with trusted := certs, rsrcs := rs })

/-- Body of validation_peek_cert: the top of the trusted stack, none when
the stack is empty (sk_X509_value at index -1 returns NULL). -/
def validation_peek_cert (state : validation) : Option X509 :=
  state.trusted.head?

/-- Body of validation_peek_resource: the top of the resource stack, none
when it is empty. -/
def validation_peek_resource (state : validation) : Option resources :=
  state.rsrcs.head?

/-! ## Operation sequences over a validation state -/

/-- One validation-state operation of the walker's discipline. -/
inductive VOp where
  | vpush (cert : X509) (is_ta : Bool)
  | vpop
  | vpeek_cert
  | vpeek_resource
deriving DecidableEq

/-- State transformer of one operation; the peeks read the stacks without
modifying the state. -/
def vstep (s : validation) : VOp → validation
  | VOp.vpush c ta => (validation_push_cert s c ta).2
  | VOp.vpop => (validation_pop_cert s).2
  | VOp.vpeek_cert => s
  | VOp.vpeek_resource => s

/-- Runs a sequence of validation-state operations. -/
def runOps (s : validation) (ops : List VOp) : validation :=
  ops.foldl vstep s

/-- Parallelism invariant of the two stacks: they have pointwise equal
shape, and the resource set at each position is exactly the one computed
from (and pushed together with) the certificate at the same position. -/
def stacksParallel (s : validation) : Prop :=
  List.Forall₂ (fun c r => certificate_get_resources c = Except.ok r)
    s.trusted s.rsrcs

/-! ## Hash module (crypto/hash.c) -/

/-- Message digest algorithm as the hash module uses it: the digest it
computes over a file's full contents. Per the spec, digest(algorithm, bytes)
is delegated to the crypto provider, so the function is carried abstractly.
Bytes are modelled as Nat lists. -/
structure EVP_MD where
  digest : List Nat → List Nat

/-- Struct rpki_uri as hash.c observes it: the local file path the URI maps
to (the C field named local; uri.c is not among the sampled sources). -/
structure rpki_uri where
  local_path : String

/-- BIT STRING as delivered by the ASN.1 decoder: content bytes plus the
count of unused bits of the last byte. -/
structure BIT_STRING_t where
  buf : List Nat
  bits_unused : Nat

/-- Environment the hash module runs against: the digest algorithms known to
EVP_get_digestbyname, and the readable files of the local mirror, where none
models both an absent file (file_open fails) and a read failure (ferror),
which hash.c treats alike by propagating a nonzero error. -/
structure HashEnv where
  mds : String → Option EVP_MD
  files : String → Option (List Nat)

/-- Body of get_md: look the algorithm name up, failing with -EINVAL when it
is unknown. -/
def get_md (env : HashEnv) (algorithm : String) : Except Int EVP_MD :=
  match env.mds algorithm with
  | none => Except.error (-EINVAL)
  | some md => Except.ok md

/-- File opening plus the chunked fread loop of hash_file, modelled as
producing the file's full contents; failure to open or read yields a nonzero
error. -/
def file_contents (env : HashEnv) (uri : rpki_uri) : Except Int (List Nat) :=
  match env.files uri.local_path with
  | none => Except.error (-ENOENT)
  | some c => Except.ok c

/-- Body of hash_matches: equal length and equal bytes (memcmp). -/
def hash_matches (expected actual : List Nat) : Bool :=
  (expected.length == actual.length) && (expected == actual)

/-- Body of hash_file: resolve the digest algorithm, read the file, digest
its full contents (the EVP init/update/final failure paths of libcrypto are
not modelled). -/
def hash_file (env : HashEnv) (algorithm : String) (uri : rpki_uri) :
    Except Int (List Nat) :=
  match get_md env algorithm with
  | Except.error e => Except.error e
  | Except.ok md =>
    match file_contents env uri with
    | Except.error e => Except.error e
    | Except.ok content => Except.ok (md.digest content)

/-- Body of hash_validate_file: reject an expected BIT STRING carrying
unused bits via pr_err before anything else; then hash the file, propagating
its errors; then compare with hash_matches, reporting pr_err on mismatch and
returning 0 on success. -/
def hash_validate_file (env : HashEnv) (algorithm : String) (uri : rpki_uri)
    (expected : BIT_STRING_t) : Int :=
  if expected.bits_unused ≠ 0 then pr_err_result
  else
    match hash_file env algorithm uri with
    | Except.error e => e
    | Except.ok actual =>
      if hash_matches expected.buf actual then 0 else pr_err_result

/-! ## Notifier (notify.c) -/

/-- Serial number type of the RTR database (serial_t). -/
abbrev serial_t := Nat

/-- RTR client registry entry as notify.c observes it: socket descriptor,
negotiated protocol version, and the outcome of send_serial_notify_pdu for a
given serial; the pdu sender performs socket I/O (pdu_sender.c, not among
the sampled sources), so its result is carried as an oracle per client. -/
structure client where
  fd : Nat
  rtr_version : Nat
  send_result : serial_t → Int

/-- Body of send_notify: send the Serial Notify PDU; when the send fails,
log a warning; always return 0 so that the iteration is not interrupted.
The Bool of the pair records whether the warning was logged. -/
def send_notify (c : client) (serial : serial_t) : Int × Bool :=
  let error := c.send_result serial
  (0, error != 0)

/-- Modelled from the spec: clients_foreach (clients.c, not among the
sampled sources) visits the registered clients in order and stops early when
the callback returns nonzero. The registry itself is left untouched; the
returned trace lists each visited client with the Bool its callback
produced. -/
def clients_foreach (f : client → Int × Bool) :
    List client → Int × List (client × Bool)
  | [] => (0, [])
  | c :: rest =>
    let r := f c
    if r.1 ≠ 0 then (r.1, [(c, r.2)])
    else
      let t := clients_foreach f rest
      (t.1, (c, r.2) :: t.2)

/-- Environment of notify_clients: the database's last serial as
get_last_serial_number reports it (vrps.c, not among the sampled sources),
and the registered clients. -/
structure NotifyEnv where
  last_serial : Except Int serial_t
  clients : List client

/-- Body of notify_clients: read the last serial once, propagating its error;
then broadcast via clients_foreach with send_notify. -/
def notify_clients (env : NotifyEnv) : Int × List (client × Bool) :=
  match env.last_serial with
  | Except.error e => (e, [])
  | Except.ok serial =>
    clients_foreach (fun c => send_notify c serial) env.clients

/-! ## Concrete inputs used by the witnesses -/

/-- Concrete certificate whose RFC 3779 extensions parse to an empty
resource set. -/
def certNoResources : X509 :=
  ⟨1, some ⟨[], []⟩⟩

/-- Concrete certificate owning one IPv4 range. -/
def certOneRange : X509 :=
  ⟨2, some ⟨[⟨0, 10, 20⟩], []⟩⟩

/-- Hash environment in which every algorithm name resolves to the identity
digest and every file reads as empty. -/
def hashEnvId : HashEnv :=
  ⟨fun _ => some ⟨fun c => c⟩, fun _ => some []⟩

/-- Hash environment in which no algorithm and no file resolves. -/
def hashEnvNone : HashEnv :=
  ⟨fun _ => none, fun _ => none⟩

/-- Client whose notify send succeeds. -/
def clientOk : client :=
  ⟨3, 1, fun _ => 0⟩

/-- Client whose notify send fails with a nonzero error. -/
def clientBad : client :=
  ⟨4, 0, fun _ => -5⟩

/-- Notify environment with a known serial and one failing client followed
by one succeeding client. -/
def notifyEnvTwo : NotifyEnv :=
  ⟨Except.ok 7, [clientBad, clientOk]⟩

/-! ## Helper lemmas -/

theorem hash_matches_iff (a b : List Nat) : hash_matches a b = true ↔ a = b := by
  constructor
  · intro h
    simp only [hash_matches, Bool.and_eq_true, beq_iff_eq] at h
    exact h.2
  · intro h
    subst h
    simp [hash_matches]

theorem clients_foreach_ok (f : client → Int × Bool)
    (hf : ∀ c, (f c).1 = 0) (l : List client) :
    (clients_foreach f l).1 = 0 ∧
    (clients_foreach f l).2.map Prod.fst = l ∧
    ∀ p ∈ (clients_foreach f l).2, p.2 = (f p.1).2 := by
  induction l with
  | nil =>
    refine ⟨rfl, rfl, ?_⟩
    intro p hp
    cases hp
  | cons c rest ih =>
    simp only [clients_foreach, hf c, ne_eq, not_true_eq_false, if_false,
      ite_false]
    refine ⟨ih.1, ?_, ?_⟩
    · simp only [List.map_cons, ih.2.1]
    · intro p hp
      rcases List.mem_cons.mp hp with hp | hp
      · subst hp; rfl
      · exact ih.2.2 p hp

theorem stacksParallel_vstep {s : validation} (op : VOp)
    (h : stacksParallel s) : stacksParallel (vstep s op) := by
  cases op with
  | vpush c ta =>
    show stacksParallel (validation_push_cert s c ta).2
    unfold validation_push_cert
    cases hr : certificate_get_resources c with
    | error e => exact h
    | ok rs =>
      by_cases hc : (ta && resources_empty rs) = true
      · simp only [hc, if_true]
        exact h
      · simp only [hc, if_false, ite_false]
        exact List.Forall₂.cons hr h
  | vpop =>
    obtain ⟨tal, store, trusted, rsrcs, pk⟩ := s
    simp only [stacksParallel] at h
    simp only [stacksParallel, vstep, validation_pop_cert]
    cases trusted with
    | nil => exact h
    | cons c cs =>
      cases h with
      | cons hcr htail => exact htail
  | vpeek_cert => exact h
  | vpeek_resource => exact h

theorem stacksParallel_runOps (s : validation) (ops : List VOp)
    (h : stacksParallel s) : stacksParallel (runOps s ops) := by
  induction ops generalizing s with
  | nil => exact h
  | cons op ops ih => exact ih _ (stacksParallel_vstep op h)

theorem stacksParallel_prepare (tal : Nat) :
    stacksParallel (validation_prepare tal) :=
  List.Forall₂.nil

theorem fusable_iff {a b : RRange} :
    fusable a b = true ↔ (a.fam = b.fam ∧ b.lo ≤ a.hi + 1) := by
  simp [fusable]

theorem rle_congr_right {a b c : RRange} (hf : b.fam = c.fam)
    (hl : b.lo = c.lo) : rle a b ↔ rle a c := by
  unfold rle
  rw [hf, hl]

theorem fusable_congr_right {a b c : RRange} (hf : b.fam = c.fam)
    (hl : b.lo = c.lo) : fusable a b = fusable a c := by
  unfold fusable
  rw [hf, hl]

theorem rle_mono_left {a b d : RRange} (hf : a.fam = b.fam)
    (hl : a.lo ≤ b.lo) (h : rle b d) : rle a d := by
  unfold rle at h ⊢
  omega

theorem chain_rle_mono_head {a b : RRange} {l : List RRange}
    (hf : a.fam = b.fam) (hl : a.lo ≤ b.lo)
    (h : List.Chain rle b l) : List.Chain rle a l := by
  cases l with
  | nil => exact List.Chain.nil
  | cons d t =>
    cases h with
    | cons hbd ht => exact List.Chain.cons (rle_mono_left hf hl hbd) ht

theorem fuseRanges_head (l : List RRange) :
    ∀ a : RRange, ∃ hhi t, fuseRanges a l = RRange.mk a.fam a.lo hhi :: t := by
  induction l with
  | nil =>
    intro a
    exact ⟨a.hi, [], rfl⟩
  | cons b l ih =>
    intro a
    by_cases hfus : fusable a b = true
    · obtain ⟨hhi, t, ht⟩ := ih ⟨a.fam, a.lo, max a.hi b.hi⟩
      exact ⟨hhi, t, by simp only [fuseRanges, hfus, if_true]; exact ht⟩
    · exact ⟨a.hi, fuseRanges b l, by simp [fuseRanges, hfus]⟩

theorem fuseRanges_chain (l : List RRange) :
    ∀ a : RRange, List.Chain rle a l →
      List.Chain' (fun x y => rle x y ∧ fusable x y = false) (fuseRanges a l) := by
  induction l with
  | nil =>
    intro a _
    simp [fuseRanges]
  | cons b l ih =>
    intro a h
    cases h with
    | cons hab hbl =>
      by_cases hfus : fusable a b = true
      · have hfam : a.fam = b.fam := (fusable_iff.mp hfus).1
        have hlo : a.lo ≤ b.lo := by
          have hab₂ : a.fam < b.fam ∨ (a.fam = b.fam ∧ a.lo ≤ b.lo) := hab
          omega
        have hchain : List.Chain rle (⟨a.fam, a.lo, max a.hi b.hi⟩ : RRange) l :=
          chain_rle_mono_head hfam hlo hbl
        simp only [fuseRanges, hfus, if_true]
        exact ih _ hchain
      · have hfalse : fusable a b = false := by
          simp only [Bool.not_eq_true] at hfus
          exact hfus
        obtain ⟨hhi, t, ht⟩ := fuseRanges_head l b
        simp only [fuseRanges, hfus, if_false, ite_false, ht]
        refine List.chain'_cons.mpr ⟨⟨?_, ?_⟩, ?_⟩
        · exact (rle_congr_right rfl rfl).mp hab
        · rw [← fusable_congr_right rfl rfl]
          exact hfalse
        · rw [← ht]
          exact ih b hbl

theorem fuseRanges_eq_self (l : List RRange) :
    ∀ a : RRange, List.Chain (fun x y => fusable x y = false) a l →
      fuseRanges a l = a :: l := by
  induction l with
  | nil =>
    intro a _
    rfl
  | cons b l ih =>
    intro a h
    cases h with
    | cons hab hbl =>
      simp [fuseRanges, hab, ih b hbl]

theorem canonRanges_chain (l : List RRange) :
    List.Chain' (fun x y => rle x y ∧ fusable x y = false) (canonRanges l) := by
  unfold canonRanges
  cases hs : List.insertionSort rle l with
  | nil => simp
  | cons a t =>
    have hsorted : List.Sorted rle (List.insertionSort rle l) :=
      List.sorted_insertionSort rle l
    rw [hs] at hsorted
    have hchain : List.Chain rle a t := List.chain'_iff_pairwise.mpr hsorted
    exact fuseRanges_chain t a hchain

theorem canonRanges_eq_self {m : List RRange}
    (h : List.Chain' (fun x y => rle x y ∧ fusable x y = false) m) :
    canonRanges m = m := by
  have hpair : List.Pairwise rle m :=
    List.chain'_iff_pairwise.mp (List.Chain'.imp (fun a b hab => hab.1) h)
  have hsort : List.insertionSort rle m = m :=
    List.Sorted.insertionSort_eq hpair
  unfold canonRanges
  rw [hsort]
  cases m with
  | nil => rfl
  | cons a t =>
    exact fuseRanges_eq_self t a (List.Chain.imp (fun x y hxy => hxy.2) h)

theorem canonRanges_idem (l : List RRange) :
    canonRanges (canonRanges l) = canonRanges l :=
  canonRanges_eq_self (canonRanges_chain l)

/-! ## Claim theorems -/

/-- C1: the verification callback that validation_prepare registers on the
X.509 store is cb, and cb ignores exactly the unhandled-critical-extension
error: for that code it returns the ignore status 1, and for every other
code it returns the incoming status unchanged, in particular the aborting
status 0 with which the library reports an error. -/
theorem C1_prepare_callback_ignores_only_unhandled_critical_extension :
    ∀ (tal : Nat) (ok err : Int),
      (validation_prepare tal).store.verify_cb = cb ∧
      (err = X509_V_ERR_UNHANDLED_CRITICAL_EXTENSION → cb ok err = 1) ∧
      (err ≠ X509_V_ERR_UNHANDLED_CRITICAL_EXTENSION → cb ok err = ok) ∧
      (err ≠ X509_V_ERR_UNHANDLED_CRITICAL_EXTENSION → cb 0 err = 0) := by
  intro tal ok err
  refine ⟨rfl, fun h => ?_, fun h => ?_, fun h => ?_⟩ <;> simp [cb, h]

theorem C1_callback_witness :
    (validation_prepare 0).store.verify_cb = cb ∧
    cb 0 X509_V_ERR_UNHANDLED_CRITICAL_EXTENSION = 1 ∧
    cb 0 5 = 0 :=
  ⟨(C1_prepare_callback_ignores_only_unhandled_critical_extension 0 0
      X509_V_ERR_UNHANDLED_CRITICAL_EXTENSION).1,
   (C1_prepare_callback_ignores_only_unhandled_critical_extension 0 0
      X509_V_ERR_UNHANDLED_CRITICAL_EXTENSION).2.1 rfl,
   (C1_prepare_callback_ignores_only_unhandled_critical_extension 0 0
      5).2.2.2 (by decide)⟩

/-- C2: validation_destroy reports the missing-pops error exactly when the
trusted certificate stack is non-empty at teardown. -/
theorem C2_destroy_fails_loudly_iff_stack_nonempty :
    ∀ s : validation, validation_destroy s = true ↔ s.trusted.length ≠ 0 := by
  intro s
  simp [validation_destroy, sk_X509_num]

/-- C3: validation_push_cert on a trust anchor whose computed resource set
is empty fails with a nonzero error and leaves the whole state, in
particular both stacks, unchanged; whenever it returns 0, it has pushed the
certificate onto the certificate stack and the computed resource set onto
the resource stack. -/
theorem C3_push_cert_empty_ta_fails_else_pushes :
    ∀ (s : validation) (c : X509) (ta : Bool),
      (∀ r, certificate_get_resources c = Except.ok r → ta = true →
        resources_empty r = true →
        (validation_push_cert s c ta).1 ≠ 0 ∧
        (validation_push_cert s c ta).2 = s) ∧
      ((validation_push_cert s c ta).1 = 0 →
        ∃ r, certificate_get_resources c = Except.ok r ∧
          (validation_push_cert s c ta).2.trusted = c :: s.trusted ∧
          (validation_push_cert s c ta).2.rsrcs = r :: s.rsrcs) := by
  intro s c ta
  constructor
  · intro r hr hta hempty
    subst hta
    simp only [validation_push_cert, hr, hempty, Bool.and_self, if_true,
      Bool.true_and, ite_true]
    exact ⟨by decide, trivial⟩
  · intro h0
    cases hd : c.resData with
    | none =>
      exfalso
      simp only [validation_push_cert, certificate_get_resources, hd] at h0
      exact absurd h0 (by decide)
    | some rs =>
      have hr : certificate_get_resources c = Except.ok rs := by
        simp [certificate_get_resources, hd]
      by_cases hc : (ta && resources_empty rs) = true
      · exfalso
        simp only [validation_push_cert, hr, hc, if_true, ite_true] at h0
        exact absurd h0 (by decide)
      · refine ⟨rs, hr, ?_, ?_⟩ <;> simp [validation_push_cert, hr, hc]

theorem C3_push_cert_witness :
    ((validation_push_cert (validation_prepare 0) certNoResources true).1 ≠ 0 ∧
     (validation_push_cert (validation_prepare 0) certNoResources true).2 =
       validation_prepare 0) ∧
    (∃ r, certificate_get_resources certOneRange = Except.ok r ∧
      (validation_push_cert (validation_prepare 0) certOneRange true).2.trusted =
        certOneRange :: (validation_prepare 0).trusted ∧
      (validation_push_cert (validation_prepare 0) certOneRange true).2.rsrcs =
        r :: (validation_prepare 0).rsrcs) :=
  ⟨(C3_push_cert_empty_ta_fails_else_pushes (validation_prepare 0)
      certNoResources true).1 ⟨[], []⟩ rfl rfl rfl,
   (C3_push_cert_empty_ta_fails_else_pushes (validation_prepare 0)
      certOneRange true).2 rfl⟩

/-- C4: validation_pop_cert on a state whose certificate stack is empty
reports the critical pr_crit error, which is nonzero, and leaves the state
unchanged; on any state reached from a freshly prepared state whose
certificate stack is non-empty, it returns 0 and removes exactly the top
element of both the certificate stack and the resource stack. -/
theorem C4_pop_cert_crashes_on_empty_else_pops_both :
    ∀ (s : validation) (tal : Nat) (ops : List VOp),
      (s.trusted = [] →
        (validation_pop_cert s).1 = pr_crit_result ∧ pr_crit_result ≠ 0 ∧
        (validation_pop_cert s).2 = s) ∧
      ((runOps (validation_prepare tal) ops).trusted ≠ [] →
        (validation_pop_cert (runOps (validation_prepare tal) ops)).1 = 0 ∧
        (validation_pop_cert (runOps (validation_prepare tal) ops)).2.trusted =
          (runOps (validation_prepare tal) ops).trusted.tail ∧
        (validation_pop_cert (runOps (validation_prepare tal) ops)).2.rsrcs =
          (runOps (validation_prepare tal) ops).rsrcs.tail) := by
  intro s tal ops
  constructor
  · intro h
    refine ⟨?_, by decide, ?_⟩ <;> simp [validation_pop_cert, h]
  · intro hne
    have hp := stacksParallel_runOps (validation_prepare tal) ops
      (stacksParallel_prepare tal)
    set t := runOps (validation_prepare tal) ops with ht
    have hlen := List.Forall₂.length_eq hp
    cases htr : t.trusted with
    | nil => exact absurd htr hne
    | cons c cs =>
      cases hrs : t.rsrcs with
      | nil =>
        rw [htr, hrs] at hlen
        simp at hlen
      | cons r rs =>
        refine ⟨?_, ?_, ?_⟩ <;> simp [validation_pop_cert, htr, hrs]

theorem C4_pop_cert_witness :
    ((validation_pop_cert (validation_prepare 0)).1 = pr_crit_result ∧
      pr_crit_result ≠ 0 ∧
      (validation_pop_cert (validation_prepare 0)).2 = validation_prepare 0) ∧
    ((validation_pop_cert
        (runOps (validation_prepare 0) [VOp.vpush certOneRange false])).1 = 0 ∧
     (validation_pop_cert
        (runOps (validation_prepare 0) [VOp.vpush certOneRange false])).2.trusted =
       (runOps (validation_prepare 0) [VOp.vpush certOneRange false]).trusted.tail ∧
     (validation_pop_cert
        (runOps (validation_prepare 0) [VOp.vpush certOneRange false])).2.rsrcs =
       (runOps (validation_prepare 0) [VOp.vpush certOneRange false]).rsrcs.tail) :=
  ⟨(C4_pop_cert_crashes_on_empty_else_pops_both (validation_prepare 0) 0 []).1 rfl,
   (C4_pop_cert_crashes_on_empty_else_pops_both (validation_prepare 0) 0
      [VOp.vpush certOneRange false]).2 (by decide)⟩

/-- C5: from a freshly prepared state, after any sequence of push, pop and
peek operations the certificate stack and the resource stack have equal
length, and at every position the resource set is exactly the one computed
from, and pushed together with, the certificate at the same position. -/
theorem C5_cert_and_resource_stacks_parallel :
    ∀ (tal : Nat) (ops : List VOp),
      (runOps (validation_prepare tal) ops).trusted.length =
        (runOps (validation_prepare tal) ops).rsrcs.length ∧
      stacksParallel (runOps (validation_prepare tal) ops) := by
  intro tal ops
  have h := stacksParallel_runOps (validation_prepare tal) ops
    (stacksParallel_prepare tal)
  exact ⟨List.Forall₂.length_eq h, h⟩

/-- C6 counterexample: an expected hash whose BIT STRING carries one unused
bit is rejected by hash_validate_file even though the file opens and reads,
the algorithm is known, and the digest of the contents equals the expected
bytes byte-for-byte; this refutes the claimed equivalence as stated. -/
theorem C6_counterexample_unused_bits_mismatch :
    hashEnvId.mds "sha256" = some ⟨fun c => c⟩ ∧
    hashEnvId.files "f" = some [] ∧
    EVP_MD.digest ⟨fun c => c⟩ [] = ([] : List Nat) ∧
    BIT_STRING_t.buf ⟨[], 1⟩ = ([] : List Nat) ∧
    hash_validate_file hashEnvId "sha256" ⟨"f"⟩ ⟨[], 1⟩ ≠ 0 :=
  ⟨rfl, rfl, rfl, rfl, by decide⟩

/-- C6 amended: hash_validate_file returns 0 exactly when the expected BIT
STRING has zero unused bits, the digest algorithm is known, the file mapped
from the URI can be opened and read, and the computed digest of the file's
full contents equals the expected bytes byte-for-byte; any mismatch or read
failure yields a nonzero error. -/
theorem C6_validate_file_amended_iff :
    ∀ (env : HashEnv) (algorithm : String) (uri : rpki_uri)
      (expected : BIT_STRING_t),
      hash_validate_file env algorithm uri expected = 0 ↔
        (expected.bits_unused = 0 ∧
         ∃ md content, env.mds algorithm = some md ∧
           env.files uri.local_path = some content ∧
           expected.buf = md.digest content) := by
  intro env algorithm uri expected
  by_cases hbu : expected.bits_unused = 0
  · cases hmd : env.mds algorithm with
    | none =>
      simp [hash_validate_file, hash_file, get_md, file_contents, hbu, hmd,
        EINVAL]
    | some md =>
      cases hf : env.files uri.local_path with
      | none =>
        simp [hash_validate_file, hash_file, get_md, file_contents, hbu, hmd,
          hf, ENOENT]
      | some content =>
        by_cases hm : hash_matches expected.buf (md.digest content) = true
        · have hmm : hash_matches (md.digest content) (md.digest content) = true :=
            (hash_matches_iff _ _).mpr rfl
          simp [hash_validate_file, hash_file, get_md, file_contents, hbu,
            hmd, hf, hm, hmm, (hash_matches_iff _ _).mp hm]
        · have hne : expected.buf ≠ md.digest content :=
            fun he => hm ((hash_matches_iff _ _).mpr he)
          simp [hash_validate_file, hash_file, get_md, file_contents, hbu,
            hmd, hf, hm, hne, pr_err_result, EINVAL]
  · simp [hash_validate_file, hbu, pr_err_result, EINVAL]

/-- C7: when the database reports a last serial, notify_clients returns 0
and its broadcast trace visits every registered client in order, sending
that serial to each; a client whose send fails is merely flagged as having
had the warning logged, the iteration continues through all remaining
clients, and the registry is untouched, the traced clients being exactly
the registered ones. -/
theorem C7_notify_broadcast_best_effort :
    ∀ (env : NotifyEnv) (serial : serial_t),
      env.last_serial = Except.ok serial →
      (notify_clients env).1 = 0 ∧
      (notify_clients env).2.map Prod.fst = env.clients ∧
      ∀ p ∈ (notify_clients env).2,
        p.2 = (p.1.send_result serial != 0) := by
  intro env serial h
  have hall := clients_foreach_ok (fun c => send_notify c serial)
    (fun c => rfl) env.clients
  simp only [notify_clients, h]
  exact ⟨hall.1, hall.2.1, fun p hp => hall.2.2 p hp⟩

theorem C7_notify_witness :
    (notify_clients notifyEnvTwo).1 = 0 ∧
    (notify_clients notifyEnvTwo).2.map Prod.fst = notifyEnvTwo.clients ∧
    ∀ p ∈ (notify_clients notifyEnvTwo).2,
      p.2 = (p.1.send_result 7 != 0) :=
  C7_notify_broadcast_best_effort notifyEnvTwo 7 rfl

/-- C8: canonicalization of resource sets is idempotent: canonicalizing an
already canonicalized pair of IP-range and AS-range sequences changes
nothing. -/
theorem C8_canonicalize_idempotent :
    ∀ x : resources, canonicalize (canonicalize x) = canonicalize x := by
  intro x
  unfold canonicalize
  simp [canonRanges_idem]

/-- C9: immediately after validation_prepare the public-key status is
untested; validation_pubkey_valid and validation_pubkey_invalid set it to
valid and invalid respectively; no stack operation of the state (push, pop
or the peeks) changes it; and validation_pubkey_state merely reads it. -/
theorem C9_pubkey_state_untested_until_setters :
    ∀ (tal : Nat) (s : validation) (op : VOp),
      (validation_prepare tal).pubkey_state = PubkeyState.PKS_UNTESTED ∧
      (validation_pubkey_valid s).pubkey_state = PubkeyState.PKS_VALID ∧
      (validation_pubkey_invalid s).pubkey_state = PubkeyState.PKS_INVALID ∧
      (vstep s op).pubkey_state = s.pubkey_state ∧
      validation_pubkey_state s = s.pubkey_state := by
  intro tal s op
  refine ⟨rfl, rfl, rfl, ?_, rfl⟩
  cases op with
  | vpush c ta =>
    show (validation_push_cert s c ta).2.pubkey_state = s.pubkey_state
    unfold validation_push_cert
    split
    · rfl
    · split <;> rfl
  | vpop =>
    show (validation_pop_cert s).2.pubkey_state = s.pubkey_state
    unfold validation_pop_cert
    split
    · rfl
    · split <;> rfl
  | vpeek_cert => rfl
  | vpeek_resource => rfl

/-- C10: whenever the expected BIT STRING has a nonzero count of unused
bits, hash_validate_file fails with the nonzero pr_err error, whatever the
environment of known algorithms and readable files, the algorithm name, or
the URI; the result being the same fixed error for every environment shows
the rejection happens before the file is opened or hashed. -/
theorem C10_unused_bits_rejected_before_hashing :
    ∀ (env : HashEnv) (algorithm : String) (uri : rpki_uri)
      (expected : BIT_STRING_t),
      expected.bits_unused ≠ 0 →
      hash_validate_file env algorithm uri expected = pr_err_result ∧
      pr_err_result ≠ 0 := by
  intro env algorithm uri expected h
  refine ⟨?_, by decide⟩
  simp [hash_validate_file, h]

theorem C10_unused_bits_witness :
    hash_validate_file hashEnvNone "md5" ⟨"a"⟩ ⟨[7], 1⟩ = pr_err_result ∧
    pr_err_result ≠ 0 :=
  C10_unused_bits_rejected_before_hashing hashEnvNone "md5" ⟨"a"⟩ ⟨[7], 1⟩
    (by decide)

end Fort
